import Mathlib

/-!
# Verification of `components/batch_processor.py`

Shallow embedding of the batch-processing component of the repository:
the `ProgressTracker` class, the `BatchProcessor` operation registry,
file discovery (`_find_files`), per-file dispatch (`_process_single_file`)
and directory processing (`process_directory`).

Modelling conventions:
* File-system effects are modelled by explicit parameters: the input
  directory's content is an `Option (List Entry)` (`none` = the directory
  does not exist or cannot be listed), and the behaviour of the external
  operation callables is an environment `OpImpl → String → OpOutcome`
  mapping each registered callable and each input file to either a raised
  exception (carrying its `str(e)` message) or a returned boolean.
* Wall-clock time is a rational parameter: `time.time()` values are passed
  explicitly to the tracker constructor and to `get_progress`.
* Python's `sorted` (an ascending stable sort; on strings equal elements
  are identical, so it is just the ascending reordering) is modelled by
  `List.insertionSort (· ≤ ·)`, which produces the same list.
* `os.walk` yields, per directory, the directory's files and then recurses
  into its subdirectories; only the multiset of collected paths matters
  because `_find_files` sorts the result, so the walk is modelled by a
  depth-first collection in entry order (`subtreeFilesList`).
* The thread pool's `as_completed` yields results in a nondeterministic
  order; the aggregate counts and record multisets are order-independent,
  and `process_directory` is modelled with a left fold over the discovered
  (sorted) file list.  The progress callback performs I/O only and is not
  modelled; the `ProgressTracker` is modelled as its own state machine.
-/

namespace BatchProc

/-- A node of the modelled file system: a plain file or a subdirectory
with its contents, as seen by `os.listdir` / `os.walk`. -/
inductive Entry : Type where
  | file (name : String) : Entry
  | dir (name : String) (contents : List Entry) : Entry

/-- Model of `os.path.join(root, name)` for the non-degenerate case used by
`_find_files` (a directory path joined with a bare entry name). -/
def pathJoin (root name : String) : String := root ++ "/" ++ name

/-- Split a character list on a separator, like Python's `str.split(sep)`
restricted to a one-character separator (`"".split` is `[""]`). -/
def splitOnSep (sep : Char) : List Char → List (List Char)
  | [] => [[]]
  | c :: cs =>
    let rest := splitOnSep sep cs
    if c = sep then [] :: rest
    else (c :: rest.headD []) :: rest.tail

/-- Model of `os.path.basename`: the part of the path after the last slash. -/
def baseName (p : String) : String := String.mk ((splitOnSep '/' p.data).getLastD [])

/-- Model of `pathlib.Path(p).stem`: the final path component without its last
extension; a name with no dot, or only a leading dot, is its own stem. -/
def pathStem (p : String) : String :=
  let name := (splitOnSep '/' p.data).getLastD []
  let parts := splitOnSep '.' name
  if parts.length ≤ 1 then String.mk name
  else if parts.headD [] = [] ∧ parts.length = 2 then String.mk name
  else String.mk (List.intercalate ['.'] parts.dropLast)

/-- ASCII lowercasing of one character, the fragment of `str.lower()` that
can influence a comparison against the ASCII suffix `".pdf"`. -/
def lowerChar (c : Char) : Char :=
  if 65 ≤ c.toNat ∧ c.toNat ≤ 90 then Char.ofNat (c.toNat + 32) else c

/-- The case-insensitive extension test `filename.lower().endswith('.pdf')`
from `_find_files`, computed on the character list of the name. -/
def isPdfName (name : String) : Bool :=
  List.isSuffixOf ['.', 'p', 'd', 'f'] (name.data.map lowerChar)

/-- Code-point lexicographic comparison of character lists: the ordering
Python's `sorted` uses on strings (`str` comparison). -/
def charListLeb : List Char → List Char → Bool
  | [], _ => true
  | _ :: _, [] => false
  | a :: as, b :: bs => if a < b then true else if b < a then false else charListLeb as bs

/-- The string ordering used to model Python's `sorted(files)`. -/
def strLe (a b : String) : Prop := charListLeb a.data b.data = true

instance : DecidableRel strLe := fun a b =>
  inferInstanceAs (Decidable (charListLeb a.data b.data = true))

instance : IsTotal String strLe where
  total := by
    intro a b
    show charListLeb a.data b.data = true ∨ charListLeb b.data a.data = true
    generalize a.data = l
    generalize b.data = m
    induction l generalizing m with
    | nil => left; rfl
    | cons x xs ih =>
      cases m with
      | nil => right; rfl
      | cons y ys =>
        rcases lt_trichotomy x y with h | h | h
        · left; simp [charListLeb, h]
        · subst h
          rcases ih ys with h' | h' <;> simp [charListLeb, h', lt_irrefl]
        · right; simp [charListLeb, h]

instance : IsTrans String strLe where
  trans := by
    intro a b c
    show charListLeb a.data b.data = true → charListLeb b.data c.data = true →
      charListLeb a.data c.data = true
    generalize a.data = l
    generalize b.data = m
    generalize c.data = o
    induction l generalizing m o with
    | nil => intro _ _; rfl
    | cons x xs ih =>
      intro hab hbc
      cases m with
      | nil => simp [charListLeb] at hab
      | cons y ys =>
        cases o with
        | nil => simp [charListLeb] at hbc
        | cons z zs =>
          simp only [charListLeb] at hab hbc ⊢
          rcases lt_trichotomy x y with hxy | hxy | hxy
          · rcases lt_trichotomy y z with hyz | hyz | hyz
            · simp [lt_trans hxy hyz]
            · subst hyz; simp [hxy]
            · simp [hyz, not_lt_of_lt hyz] at hbc
          · subst hxy
            rcases lt_trichotomy x z with hxz | hxz | hxz
            · simp [hxz]
            · subst hxz
              simp [lt_irrefl] at hab hbc ⊢
              exact ih _ _ hab hbc
            · simp [hxz, not_lt_of_lt hxz] at hbc
          · simp [hxy, not_lt_of_lt hxy] at hab

/-- The non-recursive branch of `_find_files`: `os.listdir(directory)`,
keeping names that pass the extension test and for which
`os.path.isfile` holds (i.e. the entry is a file, not a directory). -/
def listdirFiles (directory : String) (entries : List Entry) : List String :=
  entries.filterMap fun e =>
    match e with
    | Entry.file name => if isPdfName name then some (pathJoin directory name) else none
    | Entry.dir _ _ => none

/-- The recursive branch of `_find_files`: all matching files of the
subtree rooted at `root` with contents `entries`, as collected by the
`os.walk` loop (depth-first; the order is normalised by the final sort). -/
def subtreeFilesList (root : String) : List Entry → List String
  | [] => []
  | Entry.file name :: rest =>
      (if isPdfName name then [pathJoin root name] else []) ++ subtreeFilesList root rest
  | Entry.dir name sub :: rest =>
      subtreeFilesList (pathJoin root name) sub ++ subtreeFilesList root rest

/-- Model of `BatchProcessor._find_files(directory, pattern, recursive)`.
`fs` is the directory's content; `none` models a missing/unlistable
directory (`os.walk` then yields nothing, `os.listdir` raises an
`OSError` which the source catches).  The `pattern` argument is unused,
exactly as in the source.  The result is the sorted file list. -/
def findFiles (directory : String) (fs : Option (List Entry))
    (pattern : String) (recursive : Bool) : List String :=
  let files :=
    if recursive then
      match fs with
      | none => []
      | some entries => subtreeFilesList directory entries
    else
      match fs with
      | none => []
      | some entries => listdirFiles directory entries
  List.insertionSort strLe files

/-- The seven private operation methods of `BatchProcessor` that the
`supported_operations` table maps names to. -/
inductive OpImpl : Type where
  | compressOperation
  | watermarkOperation
  | encryptOperation
  | splitOperation
  | cleanMetadataOperation
  | convertOperation
  | bypassScribdOperation
deriving DecidableEq, Repr

/-- The `supported_operations` dictionary built in `BatchProcessor.__init__`:
operation name → operation callable. -/
def supported_operations : List (String × OpImpl) :=
  [("compress", OpImpl.compressOperation),
   ("watermark", OpImpl.watermarkOperation),
   ("encrypt", OpImpl.encryptOperation),
   ("split", OpImpl.splitOperation),
   ("clean_metadata", OpImpl.cleanMetadataOperation),
   ("convert", OpImpl.convertOperation),
   ("bypass_scribd", OpImpl.bypassScribdOperation)]

/-- Dictionary lookup `self.supported_operations[operation]`, returning
`none` when `operation not in self.supported_operations`. -/
def lookupOperation (name : String) : Option OpImpl :=
  (supported_operations.find? fun p => p.1 == name).map Prod.snd

/-- Outcome of invoking an operation callable on one input file: it either
raises an exception (modelled by its `str(e)` message) or returns a
boolean success flag. -/
inductive OpOutcome : Type where
  | raises (msg : String) : OpOutcome
  | returns (b : Bool) : OpOutcome
deriving DecidableEq, Repr

/-- Behaviour of the external operation callables for one batch: the
outcome of each registered callable on each input file (output path and
params are fixed per batch, determined by the input file). -/
def OpEnv : Type := OpImpl → String → OpOutcome

/-- The per-file result dictionary built by `_process_single_file`:
`output_path` is present only on success, `error` only on failure. -/
structure FileResult : Type where
  file_path : String
  output_path : Option String
  success : Bool
  error : Option String
deriving DecidableEq, Repr

/-- Model of `BatchProcessor._process_single_file(input_file, output_dir, operation,
operation_params)`: derive the output path, dispatch through the registry,
and convert a raised exception into a `{success: False, error: str(e)}`
record.  An unregistered operation name yields the
`"Unsupported operation: ..."` failure record. -/
def processSingleFile (env : OpEnv) (operation : String)
    (output_dir : String) (input_file : String) : FileResult :=
  let base_name := pathStem input_file
  let output_file := pathJoin output_dir (base_name ++ "_processed.pdf")
  match lookupOperation operation with
  | some impl =>
    match env impl input_file with
    | OpOutcome.raises msg =>
        { file_path := input_file, output_path := none, success := false, error := some msg }
    | OpOutcome.returns true =>
        { file_path := input_file, output_path := some output_file, success := true, error := none }
    | OpOutcome.returns false =>
        { file_path := input_file, output_path := none, success := false,
          error := some "Operation failed" }
  | none =>
      { file_path := input_file, output_path := none, success := false,
        error := some ("Unsupported operation: " ++ operation) }

/-- The `results` dictionary assembled by `process_directory`.  In the
empty-discovery early return the source's dict carries only
`success`, `error`, and zero counts; that record is modelled with empty
lists and zero counts. -/
structure BatchResult : Type where
  success : Bool
  error : Option String
  processed_files : List FileResult
  failed_files : List FileResult
  total_files : Nat
  success_count : Nat
  failure_count : Nat
deriving DecidableEq, Repr

/-- The early-return record `{'success': False, 'error': 'No files found
matching the pattern', 'processed_files': 0, 'failed_files': 0}`. -/
def noFilesResult : BatchResult :=
  { success := false, error := some "No files found matching the pattern",
    processed_files := [], failed_files := [],
    total_files := 0, success_count := 0, failure_count := 0 }

/-- One iteration of the `as_completed` loop: file the single-file result
into the success or failure list and bump the matching counter. -/
def stepResult (env : OpEnv) (operation output_dir : String)
    (acc : BatchResult) (file_path : String) : BatchResult :=
  let result := processSingleFile env operation output_dir file_path
  if result.success then
    { acc with processed_files := acc.processed_files ++ [result],
               success_count := acc.success_count + 1 }
  else
    { acc with failed_files := acc.failed_files ++ [result],
               failure_count := acc.failure_count + 1 }

/-- Model of `BatchProcessor.process_directory`: discover files; if none, return the
`noFilesResult` record immediately; otherwise process every file,
aggregate per-file records and counts, and set `success` to
`failure_count == 0`. -/
def processDirectory (env : OpEnv) (fs : Option (List Entry))
    (input_dir output_dir operation : String)
    (file_pattern : String) (recursive : Bool) : BatchResult :=
  let files := findFiles input_dir fs file_pattern recursive
  if files = [] then noFilesResult
  else
    let init : BatchResult :=
      { success := false, error := none, processed_files := [], failed_files := [],
        total_files := files.length, success_count := 0, failure_count := 0 }
    let r := files.foldl (stepResult env operation output_dir) init
    { r with success := r.failure_count == 0 }

/-- The `ProgressTracker` object state: counters, the last file name, and
the `time.time()` captured at construction. -/
structure ProgressTracker : Type where
  total_files : Nat
  processed_files : Nat
  failed_files : Nat
  current_file : String
  start_time : ℚ
deriving DecidableEq, Repr

/-- Model of `ProgressTracker.__init__(total_files)` at wall-clock time `start`. -/
def ProgressTracker.init (total : Nat) (start : ℚ) : ProgressTracker :=
  { total_files := total, processed_files := 0, failed_files := 0,
    current_file := "", start_time := start }

/-- Model of `ProgressTracker.update_progress(file_path, success)`: increment
`processed_files`, increment `failed_files` on failure, record the
basename as the current file.  (The mutex makes each call atomic; the
model applies calls sequentially.) -/
def ProgressTracker.update_progress (t : ProgressTracker)
    (file_path : String) (success : Bool) : ProgressTracker :=
  { t with processed_files := t.processed_files + 1,
           failed_files := if success then t.failed_files else t.failed_files + 1,
           current_file := baseName file_path }

/-- A whole sequence of `update_progress` calls, applied in order. -/
def ProgressTracker.applyUpdates (t : ProgressTracker) :
    List (String × Bool) → ProgressTracker
  | [] => t
  | (fp, s) :: rest => (t.update_progress fp s).applyUpdates rest

/-- The snapshot dictionary returned by `get_progress`. -/
structure ProgressInfo : Type where
  processed : Nat
  total : Nat
  failed : Nat
  success : Nat
  progress_percent : ℚ
  current_file : String
  elapsed_time : ℚ
  estimated_remaining : ℚ
  is_complete : Bool
deriving DecidableEq, Repr

/-- Model of `ProgressTracker.get_progress()` at wall-clock time `now`.  Percent is
0 when `total_files == 0`; the remaining-time estimate is 0 when
`processed_files == 0` and otherwise
`(elapsed/processed) * (total - processed)` (Python int subtraction,
modelled in `ℚ`); `success` is `processed - failed` (Nat subtraction
matches Python here because `failed ≤ processed` in every reachable
state). -/
def ProgressTracker.get_progress (t : ProgressTracker) (now : ℚ) : ProgressInfo :=
  let elapsed_time : ℚ := now - t.start_time
  { processed := t.processed_files
    total := t.total_files
    failed := t.failed_files
    success := t.processed_files - t.failed_files
    progress_percent :=
      if t.total_files > 0 then (t.processed_files : ℚ) / (t.total_files : ℚ) * 100 else 0
    current_file := t.current_file
    elapsed_time := elapsed_time
    estimated_remaining :=
      if t.processed_files > 0 then
        elapsed_time / (t.processed_files : ℚ) * ((t.total_files : ℚ) - (t.processed_files : ℚ))
      else 0
    is_complete := t.total_files ≤ t.processed_files }

/-- Subtree reachability: the paths `os.walk` can reach from `root` with
contents `entries` that pass the extension test — either a matching file
directly in `entries`, or a path found deeper inside a subdirectory. -/
inductive FindsFile : String → List Entry → String → Prop where
  | file_here {root : String} {entries : List Entry} {n : String} :
      Entry.file n ∈ entries → isPdfName n = true →
      FindsFile root entries (pathJoin root n)
  | in_subdir {root : String} {entries : List Entry} {n : String}
      {sub : List Entry} {p : String} :
      Entry.dir n sub ∈ entries → FindsFile (pathJoin root n) sub p →
      FindsFile root entries p

theorem foldl_stepResult (env : OpEnv) (operation output_dir : String) :
    ∀ (files : List String) (acc : BatchResult),
    files.foldl (stepResult env operation output_dir) acc =
      { acc with
        processed_files := acc.processed_files ++
          ((files.map (processSingleFile env operation output_dir)).filter
            (fun r => r.success)),
        failed_files := acc.failed_files ++
          ((files.map (processSingleFile env operation output_dir)).filter
            (fun r => !r.success)),
        success_count := acc.success_count +
          ((files.map (processSingleFile env operation output_dir)).filter
            (fun r => r.success)).length,
        failure_count := acc.failure_count +
          ((files.map (processSingleFile env operation output_dir)).filter
            (fun r => !r.success)).length }
  | [], acc => by simp
  | f :: rest, acc => by
    rw [List.foldl_cons, foldl_stepResult env operation output_dir rest]
    cases hs : (processSingleFile env operation output_dir f).success with
    | true =>
      simp [stepResult, hs, List.filter_cons, List.append_assoc, Nat.add_assoc,
        Nat.add_comm 1]
    | false =>
      simp [stepResult, hs, List.filter_cons, List.append_assoc, Nat.add_assoc,
        Nat.add_comm 1]

theorem processDirectory_of_find (env : OpEnv) (fs : Option (List Entry))
    (input_dir output_dir operation file_pattern : String) (recursive : Bool)
    (files : List String) (hfind : findFiles input_dir fs file_pattern recursive = files)
    (hne : files ≠ []) :
    processDirectory env fs input_dir output_dir operation file_pattern recursive =
      { success :=
          ((files.map (processSingleFile env operation output_dir)).filter
            (fun r => !r.success)).length == 0,
        error := none,
        processed_files :=
          (files.map (processSingleFile env operation output_dir)).filter
            (fun r => r.success),
        failed_files :=
          (files.map (processSingleFile env operation output_dir)).filter
            (fun r => !r.success),
        total_files := files.length,
        success_count :=
          ((files.map (processSingleFile env operation output_dir)).filter
            (fun r => r.success)).length,
        failure_count :=
          ((files.map (processSingleFile env operation output_dir)).filter
            (fun r => !r.success)).length } := by
  unfold processDirectory
  rw [hfind, if_neg hne]
  simp only [foldl_stepResult]
  simp

/-- C3 — When file discovery yields no files, `process_directory`
returns immediately (and totally, hence it raises nothing) the record
`{'success': False, 'error': 'No files found matching the pattern'}` with
zero processed and failed counts. -/
theorem c3_empty_discovery_reports_no_files (env : OpEnv) (fs : Option (List Entry))
    (input_dir output_dir operation file_pattern : String) (recursive : Bool)
    (hfind : findFiles input_dir fs file_pattern recursive = []) :
    processDirectory env fs input_dir output_dir operation file_pattern recursive
      = noFilesResult ∧
    (processDirectory env fs input_dir output_dir operation file_pattern recursive).success
      = false ∧
    (processDirectory env fs input_dir output_dir operation file_pattern recursive).error
      = some "No files found matching the pattern" ∧
    (processDirectory env fs input_dir output_dir operation file_pattern recursive).processed_files
      = [] ∧
    (processDirectory env fs input_dir output_dir operation file_pattern recursive).failed_files
      = [] ∧
    (processDirectory env fs input_dir output_dir operation file_pattern recursive).success_count
      = 0 ∧
    (processDirectory env fs input_dir output_dir operation file_pattern recursive).failure_count
      = 0 := by
  unfold processDirectory
  rw [hfind]
  simp [noFilesResult]

/-- Witness for **C3**: a non-existent input directory (`fs = none`)
discovers no files, and the batch call reports the no-files record. -/
theorem c3_empty_discovery_reports_no_files_witness :
    processDirectory (fun _ _ => OpOutcome.returns true) none "in" "out" "compress"
      "*.pdf" true = noFilesResult :=
  (c3_empty_discovery_reports_no_files (fun _ _ => OpOutcome.returns true) none
    "in" "out" "compress" "*.pdf" true (by decide)).1

/-- C9 — Whenever discovery finds at least one file, the returned
`BatchResult` has `success == True` iff `failure_count == 0`. -/
theorem c9_success_iff_no_failures (env : OpEnv) (fs : Option (List Entry))
    (input_dir output_dir operation file_pattern : String) (recursive : Bool)
    (hne : findFiles input_dir fs file_pattern recursive ≠ []) :
    (processDirectory env fs input_dir output_dir operation file_pattern recursive).success
      = true ↔
    (processDirectory env fs input_dir output_dir operation file_pattern recursive).failure_count
      = 0 := by
  rw [processDirectory_of_find env fs input_dir output_dir operation file_pattern recursive
    (findFiles input_dir fs file_pattern recursive) rfl hne]
  simp

/-- Witness for **C9**: on a one-file batch whose operation succeeds, the
result is successful and indeed has `failure_count = 0`. -/
theorem c9_success_iff_no_failures_witness :
    (processDirectory (fun _ _ => OpOutcome.returns true) (some [Entry.file "a.pdf"])
      "in" "out" "compress" "*.pdf" false).success = true ↔
    (processDirectory (fun _ _ => OpOutcome.returns true) (some [Entry.file "a.pdf"])
      "in" "out" "compress" "*.pdf" false).failure_count = 0 :=
  c9_success_iff_no_failures (fun _ _ => OpOutcome.returns true)
    (some [Entry.file "a.pdf"]) "in" "out" "compress" "*.pdf" false (by decide)

/-- C10 — The `file_pattern` argument of `_find_files` and
`process_directory` has no effect on the result: any two pattern strings
give identical outputs, selection being decided solely by the
case-insensitive `.pdf` filename test. -/
theorem c10_pattern_has_no_effect (env : OpEnv) (fs : Option (List Entry))
    (input_dir output_dir operation : String) (recursive : Bool)
    (pat1 pat2 : String) :
    findFiles input_dir fs pat1 recursive = findFiles input_dir fs pat2 recursive ∧
    processDirectory env fs input_dir output_dir operation pat1 recursive =
      processDirectory env fs input_dir output_dir operation pat2 recursive :=
  ⟨rfl, rfl⟩

/-- C1 — A file whose operation callable raises is converted by
`_process_single_file` into a `{success: False, error: str(e)}` record,
and a one-file batch whose only file raises still returns a `BatchResult`
(the model is a total function, so nothing propagates) with
`failure_count = 1`, `success_count = 0` and a non-empty error string. -/
theorem c1_exception_isolated (env : OpEnv) (fs : Option (List Entry))
    (input_dir output_dir operation file_pattern : String) (recursive : Bool)
    (impl : OpImpl) (f msg : String)
    (hop : lookupOperation operation = some impl)
    (henv : env impl f = OpOutcome.raises msg)
    (hmsg : msg ≠ "")
    (hfind : findFiles input_dir fs file_pattern recursive = [f]) :
    processSingleFile env operation output_dir f =
      { file_path := f, output_path := none, success := false, error := some msg } ∧
    (processDirectory env fs input_dir output_dir operation file_pattern recursive).failure_count
      = 1 ∧
    (processDirectory env fs input_dir output_dir operation file_pattern recursive).success_count
      = 0 ∧
    (processDirectory env fs input_dir output_dir operation file_pattern recursive).failed_files
      = [{ file_path := f, output_path := none, success := false, error := some msg }] ∧
    (∀ r ∈ (processDirectory env fs input_dir output_dir operation
        file_pattern recursive).failed_files, r.error ≠ none ∧ r.error ≠ some "") := by
  have hsingle : processSingleFile env operation output_dir f =
      { file_path := f, output_path := none, success := false, error := some msg } := by
    unfold processSingleFile
    rw [hop]
    simp [henv]
  rw [processDirectory_of_find env fs input_dir output_dir operation file_pattern recursive
    [f] hfind (by simp)]
  refine ⟨hsingle, ?_, ?_, ?_, ?_⟩ <;> simp [hsingle, hmsg]

/-- Witness for **C1**: a concrete one-file batch whose compress callable
raises `"boom"` yields `failure_count = 1`, `success_count = 0` and the
failure record carrying the exception text. -/
theorem c1_exception_isolated_witness :
    (processDirectory (fun _ _ => OpOutcome.raises "boom") (some [Entry.file "a.pdf"])
      "in" "out" "compress" "*.pdf" false).failure_count = 1 ∧
    (processDirectory (fun _ _ => OpOutcome.raises "boom") (some [Entry.file "a.pdf"])
      "in" "out" "compress" "*.pdf" false).success_count = 0 ∧
    (processDirectory (fun _ _ => OpOutcome.raises "boom") (some [Entry.file "a.pdf"])
      "in" "out" "compress" "*.pdf" false).failed_files =
      [{ file_path := "in/a.pdf", output_path := none, success := false,
         error := some "boom" }] := by
  have h := c1_exception_isolated (fun _ _ => OpOutcome.raises "boom")
    (some [Entry.file "a.pdf"]) "in" "out" "compress" "*.pdf" false
    OpImpl.compressOperation "in/a.pdf" "boom" (by decide) rfl (by decide) (by decide)
  exact ⟨h.2.1, h.2.2.1, h.2.2.2.1⟩

/-- C4 — With an operation name missing from the registry, every file
of a (non-empty) batch yields a per-file failure whose error message is
`"Unsupported operation: <name>"` (so it contains the bad name), the
failure count equals the file count, and the call still returns a
result record. -/
theorem c4_unsupported_operation_per_file (env : OpEnv) (fs : Option (List Entry))
    (input_dir output_dir operation file_pattern : String) (recursive : Bool)
    (files : List String)
    (hop : lookupOperation operation = none)
    (hfind : findFiles input_dir fs file_pattern recursive = files)
    (hne : files ≠ []) :
    (processDirectory env fs input_dir output_dir operation file_pattern recursive).failure_count
      = files.length ∧
    (processDirectory env fs input_dir output_dir operation file_pattern recursive).success_count
      = 0 ∧
    (processDirectory env fs input_dir output_dir operation file_pattern recursive).failed_files
      = files.map (fun f =>
          { file_path := f, output_path := none, success := false,
            error := some ("Unsupported operation: " ++ operation) }) ∧
    (∀ r ∈ (processDirectory env fs input_dir output_dir operation
        file_pattern recursive).failed_files,
      ∃ pre, r.error = some (pre ++ operation)) := by
  have hsingle : ∀ f, processSingleFile env operation output_dir f =
      { file_path := f, output_path := none, success := false,
        error := some ("Unsupported operation: " ++ operation) } := by
    intro f
    unfold processSingleFile
    rw [hop]
  rw [processDirectory_of_find env fs input_dir output_dir operation file_pattern recursive
    files hfind hne]
  refine ⟨?_, ?_, ?_, ?_⟩ <;>
    simp [hsingle, List.filter_map, Function.comp_def, List.filter_eq_nil_iff,
      List.mem_map]
  intro r hr
  exact ⟨"Unsupported operation: ", rfl⟩

/-- Witness for **C4**: a 3-file batch run with the unregistered name
`"frobnicate"` has `failure_count = 3`, `success_count = 0`, and every
failure record's error message embeds the bad name. -/
theorem c4_unsupported_operation_per_file_witness :
    (processDirectory (fun _ _ => OpOutcome.returns true)
      (some [Entry.file "a.pdf", Entry.file "b.pdf", Entry.file "c.pdf"])
      "in" "out" "frobnicate" "*.pdf" false).failure_count = 3 ∧
    (processDirectory (fun _ _ => OpOutcome.returns true)
      (some [Entry.file "a.pdf", Entry.file "b.pdf", Entry.file "c.pdf"])
      "in" "out" "frobnicate" "*.pdf" false).success_count = 0 := by
  have h := c4_unsupported_operation_per_file (fun _ _ => OpOutcome.returns true)
    (some [Entry.file "a.pdf", Entry.file "b.pdf", Entry.file "c.pdf"])
    "in" "out" "frobnicate" "*.pdf" false ["in/a.pdf", "in/b.pdf", "in/c.pdf"]
    (by decide) (by decide) (by decide)
  exact ⟨h.1, h.2.1⟩

/-- Counterexample for **C5**: the name `"bypass_metadata"` claimed by the
spec's enumeration does **not** resolve in the registry — dispatching any
file under it yields the unsupported-operation failure, contradicting the
claim that each of the spec's seven names maps to a registered callable. -/
theorem c5_counterexample :
    lookupOperation "bypass_metadata" = none ∧
    (processSingleFile (fun _ _ => OpOutcome.returns true) "bypass_metadata"
      "out" "in/a.pdf").success = false ∧
    (processSingleFile (fun _ _ => OpOutcome.returns true) "bypass_metadata"
      "out" "in/a.pdf").error = some "Unsupported operation: bypass_metadata" := by
  refine ⟨by decide, by decide, by decide⟩

/-- C5 (amended) — The registry recognizes exactly the closed
enumeration {compress, watermark, encrypt, split, clean_metadata, convert,
`bypass_scribd`} (the source registers the metadata-randomization
operation under `"bypass_scribd"`, not the spec's `"bypass_metadata"`):
each of these seven names resolves to a registered callable, and every
other name yields the unsupported-operation failure. -/
theorem c5_registry_closed_enumeration :
    (∀ name : String, (lookupOperation name).isSome = true ↔
      name ∈ ["compress", "watermark", "encrypt", "split", "clean_metadata",
              "convert", "bypass_scribd"]) ∧
    (∀ name : String,
      name ∉ ["compress", "watermark", "encrypt", "split", "clean_metadata",
              "convert", "bypass_scribd"] →
      ∀ (env : OpEnv) (output_dir f : String),
        (processSingleFile env name output_dir f).success = false ∧
        (processSingleFile env name output_dir f).error =
          some ("Unsupported operation: " ++ name)) := by
  have hiff : ∀ name : String, (lookupOperation name).isSome = true ↔
      name ∈ ["compress", "watermark", "encrypt", "split", "clean_metadata",
              "convert", "bypass_scribd"] := by
    intro name
    simp only [lookupOperation, supported_operations]
    rw [Option.isSome_map', List.find?_isSome]
    simp only [List.any_cons, List.any_nil, Bool.or_eq_true, beq_iff_eq,
      Bool.false_eq_true, or_false, List.mem_cons, List.not_mem_nil]
    constructor
    · rintro ⟨x, hx, h1⟩
      rcases hx with rfl | rfl | rfl | rfl | rfl | rfl | rfl <;> tauto
    · rintro (rfl | rfl | rfl | rfl | rfl | rfl | rfl)
      · exact ⟨("compress", OpImpl.compressOperation), by tauto, rfl⟩
      · exact ⟨("watermark", OpImpl.watermarkOperation), by tauto, rfl⟩
      · exact ⟨("encrypt", OpImpl.encryptOperation), by tauto, rfl⟩
      · exact ⟨("split", OpImpl.splitOperation), by tauto, rfl⟩
      · exact ⟨("clean_metadata", OpImpl.cleanMetadataOperation), by tauto, rfl⟩
      · exact ⟨("convert", OpImpl.convertOperation), by tauto, rfl⟩
      · exact ⟨("bypass_scribd", OpImpl.bypassScribdOperation), by tauto, rfl⟩
  refine ⟨hiff, fun name hname env output_dir f => ?_⟩
  have hnone : lookupOperation name = none := by
    rcases h : lookupOperation name with _ | impl
    · rfl
    · exact absurd ((hiff name).mp (by rw [h]; rfl)) hname
  constructor <;> · unfold processSingleFile; rw [hnone]

/-- Witness for **C5 (amended)**: the unregistered name `"frobnicate"` is
outside the seven-name enumeration, and dispatching a file under it
produces the unsupported-operation failure record. -/
theorem c5_registry_closed_enumeration_witness :
    (processSingleFile (fun _ _ => OpOutcome.returns true) "frobnicate" "out"
      "in/a.pdf").success = false ∧
    (processSingleFile (fun _ _ => OpOutcome.returns true) "frobnicate" "out"
      "in/a.pdf").error = some ("Unsupported operation: " ++ "frobnicate") :=
  c5_registry_closed_enumeration.2 "frobnicate" (by decide)
    (fun _ _ => OpOutcome.returns true) "out" "in/a.pdf"

theorem applyUpdates_processed (us : List (String × Bool)) :
    ∀ t : ProgressTracker,
      (t.applyUpdates us).processed_files = t.processed_files + us.length := by
  induction us with
  | nil => intro t; simp [ProgressTracker.applyUpdates]
  | cons u rest ih =>
    intro t
    obtain ⟨fp, s⟩ := u
    rw [ProgressTracker.applyUpdates, ih]
    simp [ProgressTracker.update_progress]
    omega

theorem applyUpdates_failed_le (us : List (String × Bool)) :
    ∀ t : ProgressTracker, t.failed_files ≤ t.processed_files →
      (t.applyUpdates us).failed_files ≤ (t.applyUpdates us).processed_files := by
  induction us with
  | nil => intro t h; exact h
  | cons u rest ih =>
    intro t h
    obtain ⟨fp, s⟩ := u
    rw [ProgressTracker.applyUpdates]
    apply ih
    cases s <;> simp [ProgressTracker.update_progress] <;> omega

/-- Counterexample for **C2**: the claim quantifies over *every* sequence
of `update_progress` calls, but `update_progress` increments
unconditionally — on a tracker built with `total_count = 0`, a single
call drives `processed_files` strictly above `total_files`. -/
theorem c2_counterexample :
    ((ProgressTracker.init 0 0).update_progress "a" true).total_files <
      ((ProgressTracker.init 0 0).update_progress "a" true).processed_files := by
  decide

/-- C2 (amended) — `processed_files` grows by exactly one per
`update_progress` call (hence is monotonically non-decreasing); it stays
bounded by `total_count` for sequences of at most `N` calls (the only
sequences a batch of `N` files produces, one call per file); and after
exactly `N` calls `processed_count = N` and
`failed_count + success_count = N` (a failed file still counts as
processed). -/
theorem c2_tracker_counters (N : Nat) (start now : ℚ)
    (us : List (String × Bool)) (t : ProgressTracker) :
    (t.applyUpdates us).processed_files = t.processed_files + us.length ∧
    t.processed_files ≤ (t.applyUpdates us).processed_files ∧
    ((ProgressTracker.init N start).applyUpdates us).processed_files = us.length ∧
    (us.length ≤ N →
      ((ProgressTracker.init N start).applyUpdates us).processed_files ≤ N) ∧
    (us.length = N →
      ((ProgressTracker.init N start).applyUpdates us).processed_files = N ∧
      (((ProgressTracker.init N start).applyUpdates us).get_progress now).failed +
        (((ProgressTracker.init N start).applyUpdates us).get_progress now).success
        = N) := by
  have hp := applyUpdates_processed us t
  have hp0 : ((ProgressTracker.init N start).applyUpdates us).processed_files
      = us.length := by
    rw [applyUpdates_processed]
    simp [ProgressTracker.init]
  have hf0 := applyUpdates_failed_le us (ProgressTracker.init N start)
    (by simp [ProgressTracker.init])
  refine ⟨hp, by omega, by omega, by omega, fun hlen => ⟨by omega, ?_⟩⟩
  simp only [ProgressTracker.get_progress]
  omega

/-- Witness for **C2 (amended)**: a batch of two updates (one success, one
failure) on a tracker with `total_count = 2` reaches
`processed_files = 2` with `failed + success = 2`. -/
theorem c2_tracker_counters_witness :
    ((ProgressTracker.init 2 0).applyUpdates [("a", true), ("b", false)]).processed_files
      = 2 ∧
    (((ProgressTracker.init 2 0).applyUpdates
        [("a", true), ("b", false)]).get_progress 5).failed +
      (((ProgressTracker.init 2 0).applyUpdates
        [("a", true), ("b", false)]).get_progress 5).success = 2 :=
  (c2_tracker_counters 2 0 5 [("a", true), ("b", false)]
    (ProgressTracker.init 2 0)).2.2.2.2 rfl

/-- C6 — `get_progress` is a total function (it cannot fail on any
tracker state); with `total_count = 0` it reports `progress_percent = 0`
and `is_complete = True`, and with `total_count > 0` the percent equals
`processed/total*100`. -/
theorem c6_progress_percent (t : ProgressTracker) (now : ℚ) :
    (t.total_files = 0 →
      (t.get_progress now).progress_percent = 0 ∧
      (t.get_progress now).is_complete = true) ∧
    (0 < t.total_files →
      (t.get_progress now).progress_percent =
        (t.processed_files : ℚ) / (t.total_files : ℚ) * 100) := by
  constructor
  · intro h
    simp [ProgressTracker.get_progress, h]
  · intro h
    simp [ProgressTracker.get_progress, h]

/-- Witness for **C6**: a freshly constructed tracker over an empty batch
reports percent 0 and completion. -/
theorem c6_progress_percent_witness :
    ((ProgressTracker.init 0 0).get_progress 7).progress_percent = 0 ∧
    ((ProgressTracker.init 0 0).get_progress 7).is_complete = true :=
  (c6_progress_percent (ProgressTracker.init 0 0) 7).1 rfl

/-- Counterexample for **C7**: `estimated_remaining` does **not** decrease
(non-strictly) as more files complete.  On a tracker over 2 files it is 0
right after construction, but after the first file completes (one
`update_progress` call, snapshot taken at elapsed time 4) it equals
`(4/1) * (2-1) = 4 > 0`.  The jump from the processed-0 baseline persists
even when the elapsed time is held fixed: at the same wall-clock instant
`now = 4` the untouched tracker still reports 0, so going from 0 to 1
processed files raises the estimate 0 → 4 with elapsed time equal. -/
theorem c7_counterexample :
    ((ProgressTracker.init 2 0).get_progress 0).estimated_remaining = 0 ∧
    (((ProgressTracker.init 2 0).update_progress "a" true).get_progress
      4).estimated_remaining = 4 ∧
    ¬ ((((ProgressTracker.init 2 0).update_progress "a" true).get_progress
      4).estimated_remaining ≤
        ((ProgressTracker.init 2 0).get_progress 0).estimated_remaining) ∧
    ((ProgressTracker.init 2 0).get_progress 4).estimated_remaining = 0 ∧
    ¬ ((((ProgressTracker.init 2 0).update_progress "a" true).get_progress
      4).estimated_remaining ≤
        ((ProgressTracker.init 2 0).get_progress 4).estimated_remaining) := by
  norm_num [ProgressTracker.get_progress, ProgressTracker.update_progress,
    ProgressTracker.init]

/-- C7 (amended) — `estimated_remaining` equals
`(elapsed/processed) * (total - processed)` when `processed > 0` and `0`
when `processed = 0`; it is 0 immediately after construction; it is never
negative on reachable states (`start_time ≤ now`, `processed ≤ total`);
and among snapshots with at least one processed file taken at the same
fixed elapsed time, it is non-increasing in the number of processed
files.  It need not decrease as files complete: the estimate is pinned to
0 while `processed = 0` (so the first completion can only raise it, even
at a fixed elapsed time), and elapsed time grows between snapshots. -/
theorem c7_estimated_remaining (t : ProgressTracker) (now : ℚ) :
    (t.processed_files = 0 → (t.get_progress now).estimated_remaining = 0) ∧
    (0 < t.processed_files →
      (t.get_progress now).estimated_remaining =
        (now - t.start_time) / (t.processed_files : ℚ) *
          ((t.total_files : ℚ) - (t.processed_files : ℚ))) ∧
    (∀ (N : Nat) (start : ℚ),
      ((ProgressTracker.init N start).get_progress now).estimated_remaining = 0) ∧
    (t.start_time ≤ now → t.processed_files ≤ t.total_files →
      0 ≤ (t.get_progress now).estimated_remaining) ∧
    (∀ t2 : ProgressTracker, t2.total_files = t.total_files →
      t2.start_time = t.start_time → t.start_time ≤ now →
      1 ≤ t.processed_files → t.processed_files ≤ t2.processed_files →
      (t2.get_progress now).estimated_remaining ≤
        (t.get_progress now).estimated_remaining) := by
  have hformula : ∀ s : ProgressTracker, 0 < s.processed_files →
      (s.get_progress now).estimated_remaining =
        (now - s.start_time) / (s.processed_files : ℚ) *
          ((s.total_files : ℚ) - (s.processed_files : ℚ)) := by
    intro s hs
    simp [ProgressTracker.get_progress, hs]
  refine ⟨?_, hformula t, ?_, ?_, ?_⟩
  · intro h
    simp [ProgressTracker.get_progress, h]
  · intro N start
    simp [ProgressTracker.get_progress, ProgressTracker.init]
  · intro hnow hle
    rcases Nat.eq_zero_or_pos t.processed_files with h0 | hpos
    · simp [ProgressTracker.get_progress, h0]
    · rw [hformula t hpos]
      apply mul_nonneg
      · apply div_nonneg (by linarith)
        exact_mod_cast Nat.zero_le _
      · rw [sub_nonneg]
        exact_mod_cast hle
  · intro t2 htot hstart hnow h1 h12
    rw [hformula t (by omega), hformula t2 (by omega), htot, hstart]
    have he : (0 : ℚ) ≤ now - t.start_time := by linarith
    have hk1 : (0 : ℚ) < (t.processed_files : ℚ) := by exact_mod_cast h1
    have hk2 : (0 : ℚ) < (t2.processed_files : ℚ) := by
      have : (1 : Nat) ≤ t2.processed_files := le_trans h1 h12
      exact_mod_cast this
    have hkk : (t.processed_files : ℚ) ≤ (t2.processed_files : ℚ) := by
      exact_mod_cast h12
    have key : ∀ k : ℚ, 0 < k →
        (now - t.start_time) / k * ((t.total_files : ℚ) - k) =
          (now - t.start_time) * (t.total_files : ℚ) / k - (now - t.start_time) := by
      intro k hk
      field_simp
      ring
    rw [key _ hk1, key _ hk2]
    have hdiv : (now - t.start_time) * (t.total_files : ℚ) / (t2.processed_files : ℚ) ≤
        (now - t.start_time) * (t.total_files : ℚ) / (t.processed_files : ℚ) :=
      div_le_div_of_nonneg_left
        (mul_nonneg he (by exact_mod_cast Nat.zero_le _)) hk1 hkk
    linarith

/-- Witness for **C7 (amended)**: on a concrete tracker (3 files, one
processed, snapshot at elapsed time 6) the estimate equals the linear
extrapolation `(6/1) * (3-1)`, and it is non-negative. -/
theorem c7_estimated_remaining_witness :
    (((ProgressTracker.init 3 0).update_progress "a" true).get_progress
      6).estimated_remaining =
      (6 - 0) / ((1 : Nat) : ℚ) * (((3 : Nat) : ℚ) - ((1 : Nat) : ℚ)) ∧
    0 ≤ (((ProgressTracker.init 3 0).update_progress "a" true).get_progress
      6).estimated_remaining := by
  have h := c7_estimated_remaining
    ((ProgressTracker.init 3 0).update_progress "a" true) 6
  exact ⟨h.2.1 (by decide), h.2.2.2.1 (by norm_num [ProgressTracker.init,
    ProgressTracker.update_progress]) (by decide)⟩

theorem mem_listdirFiles {directory : String} {entries : List Entry} {p : String} :
    p ∈ listdirFiles directory entries ↔
      ∃ n, Entry.file n ∈ entries ∧ isPdfName n = true ∧ p = pathJoin directory n := by
  simp only [listdirFiles, List.mem_filterMap]
  constructor
  · rintro ⟨e, he, hsome⟩
    cases e with
    | file n =>
      by_cases hn : isPdfName n = true
      · simp only [hn, if_true] at hsome
        exact ⟨n, he, hn, (Option.some_inj.mp hsome).symm⟩
      · simp [hn] at hsome
    | dir n sub => simp at hsome
  · rintro ⟨n, hmem, hn, rfl⟩
    exact ⟨Entry.file n, hmem, by simp [hn]⟩

theorem FindsFile.weaken {root p : String} {e : Entry} {rest : List Entry}
    (h : FindsFile root rest p) : FindsFile root (e :: rest) p := by
  cases h with
  | file_here hm hp => exact FindsFile.file_here (List.mem_cons_of_mem _ hm) hp
  | in_subdir hm hf => exact FindsFile.in_subdir (List.mem_cons_of_mem _ hm) hf

theorem file_mem_subtreeFilesList {root n : String} {entries : List Entry}
    (hmem : Entry.file n ∈ entries) (hpdf : isPdfName n = true) :
    pathJoin root n ∈ subtreeFilesList root entries := by
  induction entries with
  | nil => cases hmem
  | cons e rest ih =>
    rcases List.mem_cons.mp hmem with he | hmem'
    · rw [← he, subtreeFilesList, if_pos hpdf]
      exact List.mem_append_left _ (List.mem_singleton_self _)
    · cases e with
      | file m =>
        rw [subtreeFilesList]
        exact List.mem_append_right _ (ih hmem')
      | dir m sub =>
        rw [subtreeFilesList]
        exact List.mem_append_right _ (ih hmem')

theorem dir_mem_subtreeFilesList {root n p : String} {sub : List Entry}
    {entries : List Entry} (hmem : Entry.dir n sub ∈ entries)
    (hp : p ∈ subtreeFilesList (pathJoin root n) sub) :
    p ∈ subtreeFilesList root entries := by
  induction entries with
  | nil => cases hmem
  | cons e rest ih =>
    rcases List.mem_cons.mp hmem with he | hmem'
    · rw [← he, subtreeFilesList]
      exact List.mem_append_left _ hp
    · cases e with
      | file m =>
        rw [subtreeFilesList]
        exact List.mem_append_right _ (ih hmem')
      | dir m s =>
        rw [subtreeFilesList]
        exact List.mem_append_right _ (ih hmem')

theorem findsFile_of_mem_subtree :
    ∀ (root : String) (entries : List Entry) (p : String),
      p ∈ subtreeFilesList root entries → FindsFile root entries p := by
  intro root entries
  induction root, entries using subtreeFilesList.induct with
  | case1 root =>
    intro p hp
    rw [subtreeFilesList] at hp
    cases hp
  | case2 root name rest ih =>
    intro p hp
    rw [subtreeFilesList] at hp
    rcases List.mem_append.mp hp with h | h
    · by_cases hn : isPdfName name = true
      · rw [if_pos hn] at h
        rw [List.mem_singleton.mp h]
        exact FindsFile.file_here (List.mem_cons_self _ _) hn
      · rw [if_neg hn] at h
        cases h
    · exact (ih p h).weaken
  | case3 root name sub rest ihsub ihrest =>
    intro p hp
    rw [subtreeFilesList] at hp
    rcases List.mem_append.mp hp with h | h
    · exact FindsFile.in_subdir (List.mem_cons_self _ _) (ihsub p h)
    · exact (ihrest p h).weaken

theorem mem_subtreeFilesList {root : String} {entries : List Entry} {p : String} :
    p ∈ subtreeFilesList root entries ↔ FindsFile root entries p := by
  constructor
  · exact findsFile_of_mem_subtree root entries p
  · intro h
    induction h with
    | file_here hm hp => exact file_mem_subtreeFilesList hm hp
    | in_subdir hm _ ih => exact dir_mem_subtreeFilesList hm ih

theorem findsFile_shape {root : String} {entries : List Entry} {p : String}
    (h : FindsFile root entries p) :
    ∃ r n, isPdfName n = true ∧ p = pathJoin r n := by
  induction h with
  | file_here hm hp => exact ⟨_, _, hp, rfl⟩
  | in_subdir _ _ ih => exact ih

/-- C8 — `_find_files` returns a deterministically sorted list; on a
missing/unlistable directory (`fs = none`) it returns `[]` instead of
raising; with `recursive = False` its members are exactly the top-level
file entries whose name passes the case-insensitive `.pdf` test (so it
never returns files of subdirectories); with `recursive = True` its
members are exactly the files of the full subtree (`FindsFile`); and
every returned path is a directory path joined with a filename matching
the extension case-insensitively. -/
theorem c8_find_files (dir pat : String) (recursive : Bool)
    (fs : Option (List Entry)) :
    (findFiles dir none pat recursive = []) ∧
    List.Sorted strLe (findFiles dir fs pat recursive) ∧
    (∀ (es : List Entry) (p : String),
      p ∈ findFiles dir (some es) pat false ↔
        ∃ n, Entry.file n ∈ es ∧ isPdfName n = true ∧ p = pathJoin dir n) ∧
    (∀ (es : List Entry) (p : String),
      p ∈ findFiles dir (some es) pat true ↔ FindsFile dir es p) ∧
    (∀ p, p ∈ findFiles dir fs pat recursive →
      ∃ r n, isPdfName n = true ∧ p = pathJoin r n) := by
  refine ⟨?_, ?_, ?_, ?_, ?_⟩
  · cases recursive <;> rfl
  · exact List.sorted_insertionSort strLe _
  · intro es p
    simp only [findFiles, Bool.false_eq_true, if_false, List.mem_insertionSort]
    exact mem_listdirFiles
  · intro es p
    simp only [findFiles, if_true, List.mem_insertionSort]
    exact mem_subtreeFilesList
  · intro p hp
    simp only [findFiles, List.mem_insertionSort] at hp
    cases recursive with
    | false =>
      cases fs with
      | none => cases hp
      | some es =>
        simp only [Bool.false_eq_true, if_false] at hp
        obtain ⟨n, _, hn, rfl⟩ := mem_listdirFiles.mp hp
        exact ⟨dir, n, hn, rfl⟩
    | true =>
      cases fs with
      | none => cases hp
      | some es =>
        simp only [if_true] at hp
        exact findsFile_shape (mem_subtreeFilesList.mp hp)

/-- Witness for **C8**: a concrete two-level tree.  Non-recursively only
the top-level `B.PDF` is found; recursively the subdirectory's `a.pdf` is
found as well, and it is reachable in the subtree relation. -/
theorem c8_find_files_witness :
    ("d/B.PDF" ∈ findFiles "d"
      (some [Entry.file "B.PDF", Entry.dir "s" [Entry.file "a.pdf"]]) "*.pdf" false ↔
      ∃ n, Entry.file n ∈ [Entry.file "B.PDF", Entry.dir "s" [Entry.file "a.pdf"]] ∧
        isPdfName n = true ∧ "d/B.PDF" = pathJoin "d" n) ∧
    ("d/s/a.pdf" ∈ findFiles "d"
      (some [Entry.file "B.PDF", Entry.dir "s" [Entry.file "a.pdf"]]) "*.pdf" true ↔
      FindsFile "d" [Entry.file "B.PDF", Entry.dir "s" [Entry.file "a.pdf"]] "d/s/a.pdf") ∧
    (∃ r n, isPdfName n = true ∧ "d/B.PDF" = pathJoin r n) := by
  have h := c8_find_files "d" "*.pdf" false
    (some [Entry.file "B.PDF", Entry.dir "s" [Entry.file "a.pdf"]])
  refine ⟨h.2.2.1 _ _, (c8_find_files "d" "*.pdf" true
    (some [Entry.file "B.PDF", Entry.dir "s" [Entry.file "a.pdf"]])).2.2.2.1 _ _, ?_⟩
  exact h.2.2.2.2 "d/B.PDF" (by decide)

end BatchProc
